import Mathlib

/-!
Shallow embedding of the drift-bottle plugin (astrbot_plugin_drift_bottle).

The embedding follows the Python sources:
* `main.py` — the command layer over the two-partition JSON store
  (active / picked lists), commands throw / pick / view-picked / count / list;
* `uploaded_bottles_tracker.py` — the upload tracker;
* `cloud_bottle_storage.py` — the cloud client's pick-with-reset logic;
* `bottle_storage.py` — the per-user picked list and its sorted read.

Python ints are modelled as `Int`, strings as `String`, JSON dictionaries of
known shape as structures, file/JSON parse outcomes as explicit inputs.
-/

namespace DriftBottle

/-- An image entry as stored in a bottle record: a dict with a "type" field
("url" or "base64") and a "data" field (`main.py`, `_collect_images`). -/
structure ImageData where
  type : String
  data : String
deriving DecidableEq

/-- A bottle record as built in `main.py` `throw_bottle` (lines 170-177):
a dict with keys id, content, images, sender, sender_id, timestamp. -/
structure Bottle where
  id : Int
  content : String
  images : List ImageData
  sender : String
  sender_id : String
  timestamp : String
deriving DecidableEq

/-- The two-partition store `drift_bottles.json`: dict with "active" and
"picked" lists (`main.py`, `_ensure_data_file` / `_load_bottles`). -/
structure Bottles where
  active : List Bottle
  picked : List Bottle
deriving DecidableEq

/-- The initial store written by `_ensure_data_file`: both lists empty. -/
def initialStore : Bottles := { active := [], picked := [] }

/-- Python's builtin max over a generator of the id fields of a non-empty
list, as in `max(bottle["id"] for bottle in bottles["active"])`;
on the empty list (never queried by the source) it returns 0. -/
def maxId : List Bottle → Int
  | [] => 0
  | b :: bs => bs.foldl (fun m x => max m x.id) b.id

/-- The fresh-id computation of `throw_bottle` (`main.py` lines 159-164):
start at 1, bump past the active maximum when active is non-empty, then
max with one past the picked maximum when picked is non-empty. -/
def newId (bs : Bottles) : Int :=
  let n1 : Int := 1
  let n2 : Int := if bs.active ≠ [] then maxId bs.active + 1 else n1
  if bs.picked ≠ [] then max n2 (maxId bs.picked + 1) else n2

/-- Python slicing images[:n] for an int n (`main.py` line 168): for
non-negative n the first n elements, for negative n all but the last -n. -/
def pySliceTo (n : Int) (l : List ImageData) : List ImageData :=
  if 0 ≤ n then l.take n.toNat else l.take ((l.length : Int) + n).toNat

/-- `_check_content_limits` (`main.py` lines 102-113): returns (passed, msg);
rejects when the text is longer than max_text_length, then when there are
more images than max_images. -/
def check_content_limits (maxTextLength maxImages : Int) (content : String)
    (images : List ImageData) : Bool × String :=
  if (content.length : Int) > maxTextLength then
    (false, "漂流瓶内容超过长度限制（最大 " ++ toString maxTextLength ++ " 字）")
  else if (images.length : Int) > maxImages then
    (false, "图片数量超过限制（最大 " ++ toString maxImages ++ " 张）")
  else
    (true, "")

/-- Result of one run of the throw command: the store after the run, the
bottle appended to active (none when the limits rejected the input), and
the reply text yielded to the user. -/
structure ThrowOutcome where
  state : Bottles
  added : Option Bottle
  reply : String
deriving DecidableEq

/-- `throw_bottle` (`main.py` lines 145-182). The images list is the one
`_collect_images` produced; config values and the current timestamp are
passed explicitly. On rejection the store is not even loaded; on success
the new bottle (images truncated to max_images) is appended to active. -/
def throw_bottle (maxTextLength maxImages : Int) (bs : Bottles)
    (content : String) (images : List ImageData)
    (sender sender_id timestamp : String) : ThrowOutcome :=
  let check := check_content_limits maxTextLength maxImages content images
  if check.1 then
    let nid := newId bs
    let imgs := pySliceTo maxImages images
    let b : Bottle :=
      { id := nid, content := content, images := imgs, sender := sender,
        sender_id := sender_id, timestamp := timestamp }
    { state := { active := bs.active ++ [b], picked := bs.picked },
      added := some b,
      reply := "你的漂流瓶已经扔进大海了！瓶子的编号是 " ++ toString nid }
  else
    { state := bs, added := none, reply := check.2 }

/-- `pick_bottle` (`main.py` lines 208-222) when active is non-empty:
random.choice picks the element at some index k, list.remove deletes the
first element equal to it, and the bottle is appended to picked. -/
def pick_bottle (bs : Bottles) (k : Nat) (h : k < bs.active.length) :
    Bottles × Bottle :=
  let b := bs.active.get ⟨k, h⟩
  ({ active := bs.active.erase b, picked := bs.picked ++ [b] }, b)

/-- One user command of the plugin, with the environment data it consumes:
throw carries config values, the parsed content, the collected images,
sender data and the timestamp; pick carries the index random.choice chose;
the three read commands carry their (state-irrelevant) arguments. -/
inductive Op where
  | throw (maxTextLength maxImages : Int) (content : String)
      (images : List ImageData) (sender sender_id timestamp : String)
  | pick (k : Nat)
  | viewPicked (bottle_id : Option Int)
  | countBottles
  | listPicked
deriving DecidableEq

/-- The store after one command run. `picked_bottle`, `bottle_count` and
`list_picked_bottles` never call `_save_bottles`, so they leave the store
as loaded; `pick_bottle` with an empty active list replies and returns. -/
def step (bs : Bottles) : Op → Bottles
  | .throw mtl mi c imgs s sid ts => (throw_bottle mtl mi bs c imgs s sid ts).state
  | .pick k => if h : k < bs.active.length then (pick_bottle bs k h).1 else bs
  | .viewPicked _ => bs
  | .countBottles => bs
  | .listPicked => bs

/-- The store after a sequence of command runs. -/
def runOps (bs : Bottles) (ops : List Op) : Bottles :=
  ops.foldl step bs

/-- The multiset of ids stored across both partitions, as a list. -/
def idsOf (bs : Bottles) : List Int :=
  (bs.active ++ bs.picked).map Bottle.id

/-!
### Upload tracker (`uploaded_bottles_tracker.py`)
-/

/-- The content of `uploaded_bottles.json`: a dict of the list of uploaded
ids and the last-upload timestamp (null until the first mark). -/
structure TrackerData where
  uploaded_ids : List Int
  last_upload : Option String
deriving DecidableEq

/-- The initial tracker file written by `_ensure_data_file`. -/
def initialTracker : TrackerData := { uploaded_ids := [], last_upload := none }

/-- `mark_as_uploaded` (lines 37-43): if the id is not yet recorded, append
it and stamp last_upload with the current time; otherwise do nothing. -/
def mark_as_uploaded (d : TrackerData) (bottle_id : Int) (now : String) :
    TrackerData :=
  if bottle_id ∈ d.uploaded_ids then d
  else { uploaded_ids := d.uploaded_ids ++ [bottle_id], last_upload := some now }

/-- `is_uploaded` (lines 45-48): membership test on uploaded_ids. -/
def is_uploaded (d : TrackerData) (bottle_id : Int) : Bool :=
  bottle_id ∈ d.uploaded_ids

/-- `get_last_upload_time` (lines 50-53): read last_upload. -/
def get_last_upload_time (d : TrackerData) : Option String :=
  d.last_upload

/-- `get_uploaded_count` (lines 55-58): length of uploaded_ids. -/
def get_uploaded_count (d : TrackerData) : Nat :=
  d.uploaded_ids.length

/-- One tracker operation; mark carries the timestamp datetime.now gave. -/
inductive TrackerOp where
  | mark (bottle_id : Int) (now : String)
  | isUploaded (bottle_id : Int)
  | lastUploadTime
  | uploadedCount
deriving DecidableEq

/-- Tracker state after one operation: only mark writes the file. -/
def trackerStep (d : TrackerData) : TrackerOp → TrackerData
  | .mark id now => mark_as_uploaded d id now
  | .isUploaded _ => d
  | .lastUploadTime => d
  | .uploadedCount => d

/-- Tracker state after a sequence of operations. -/
def runTracker (d : TrackerData) (ops : List TrackerOp) : TrackerData :=
  ops.foldl trackerStep d

/-!
### The loader `_load_bottles` (`main.py` lines 54-66)

The file system and the JSON parser are modelled by the input: `none` for a
missing file or unparsable content (both raise, and the bare except returns
the default), `some v` for a successfully parsed JSON value `v`.
-/

/-- A parsed JSON value, as far as `_load_bottles` inspects it. -/
inductive Json where
  | obj (fields : List (String × Json))
  | arr (elems : List Json)
  | str (s : String)
  | num (n : Int)
  | boolean (b : Bool)
  | null

/-- Python key-membership test on a dict's field list. -/
def hasKey (fields : List (String × Json)) (k : String) : Bool :=
  fields.any (fun p => p.1 = k)

/-- The default store value returned on any failure. -/
def defaultStoreJson : Json :=
  Json.obj [("active", Json.arr []), ("picked", Json.arr [])]

/-- `_load_bottles`: return the parsed value when it is a dict containing
both "active" and "picked", the default otherwise, the default when
opening or parsing raised. -/
def load_bottles (file : Option Json) : Json :=
  match file with
  | some (Json.obj fields) =>
      if hasKey fields "active" && hasKey fields "picked" then Json.obj fields
      else defaultStoreJson
  | some _ => defaultStoreJson
  | none => defaultStoreJson

/-!
### Cloud client pick-with-reset (`cloud_bottle_storage.py` lines 273-355)

The three HTTP exchanges the code can make (first pick, reset, retried
pick) are modelled by their responses; bodies are taken as already parsed
(a JSON decode failure re-raises and is outside the returned values the
claim speaks about).
-/

/-- A bottle as returned by the cloud API: its images list plus the other
fields, which the pick logic never inspects, collapsed into one opaque
payload string. -/
structure CloudBottle where
  images : List ImageData
  payload : String
deriving DecidableEq

/-- An HTTP response as far as `pick_random_bottle` inspects it: status
code, the optional Retry-After header, and the parsed body for 200. -/
structure HttpResp where
  status : Nat
  retryAfter : Option String
  bottle : CloudBottle
deriving DecidableEq

/-- The in-place image rewrite on a picked bottle (lines 297-300 and
328-331): every base64 image's data gets the prefix base64://. -/
def transformImages (b : CloudBottle) : CloudBottle :=
  { b with images := b.images.map (fun img =>
      if img.type = "base64" then { img with data := "base64://" ++ img.data }
      else img) }

/-- `_handle_rate_limit_headers` (lines 195-220), restricted to its return
value: an error dict exactly when the status is 429, with a message that
depends on the endpoint and the Retry-After header. (The X-RateLimit-*
bookkeeping only mutates counters no return value reads.) -/
def handleRateLimit (resp : HttpResp) (endpoint : String) : Option String :=
  if resp.status = 429 then
    match resp.retryAfter with
    | some ra =>
        if endpoint = "add_bottle" then
          some ("发送漂流瓶太频繁了，请等待 " ++ ra ++ " 秒后再试")
        else if endpoint = "pick_bottle" then
          some ("捡漂流瓶太频繁了，请等待 " ++ ra ++ " 秒后再试")
        else
          some ("操作太频繁了，请等待 " ++ ra ++ " 秒后再试")
    | none => some "操作太频繁了，请稍后再试"
  else none

/-- The blacklist message of the 403 branches. -/
def blacklistMsg : String := "您已被加入黑名单，无法使用漂流瓶功能"

/-- What `pick_random_bottle` can return: an error dict, a dict with the
bottle and the is_reset flag, or Python None. -/
inductive PickOutcome where
  | errorMsg (msg : String)
  | picked (bottle : CloudBottle) (is_reset : Bool)
  | nothing
deriving DecidableEq

/-- `CloudBottleStorage.pick_random_bottle`: rate-limit check then status
dispatch on the first pick; on 404 one reset request, and when the reset
returns 200 exactly one retried pick with the same dispatch; every
unhandled status inside the 404 branch falls through to return None, and
every other unhandled first status returns None. -/
def pick_random_bottle (first resetR retry : HttpResp) : PickOutcome :=
  match handleRateLimit first "pick_bottle" with
  | some e => .errorMsg e
  | none =>
    if first.status = 200 then .picked (transformImages first.bottle) false
    else if first.status = 403 then .errorMsg blacklistMsg
    else if first.status = 404 then
      match handleRateLimit resetR "reset_bottle" with
      | some e => .errorMsg e
      | none =>
        if resetR.status = 200 then
          match handleRateLimit retry "pick_bottle" with
          | some e => .errorMsg e
          | none =>
            if retry.status = 200 then .picked (transformImages retry.bottle) true
            else if retry.status = 403 then .errorMsg blacklistMsg
            else .nothing
        else .nothing
    else .nothing

/-!
### Per-user picked storage (`bottle_storage.py`)
-/

/-- An entry of a user's picked list: the API's bottle dict, of which
`get_picked_bottles` sorts by the "timestamp" field and
`get_picked_bottle` matches on "bottle_id". -/
structure PickedBottle where
  bottle_id : Int
  timestamp : String
  payload : String
deriving DecidableEq

/-- The content of the storage file: the "user_list" dict mapping a
sender_id to their picked list, as an association list. -/
structure StorageData where
  user_list : List (String × List PickedBottle)
deriving DecidableEq

/-- Python dict.get(sender_id, []) on user_list. -/
def getUserList (d : StorageData) (sender_id : String) : List PickedBottle :=
  match d.user_list.find? (fun p => p.1 = sender_id) with
  | some p => p.2
  | none => []

/-- The comparison sorted(key=timestamp, reverse=True) orders by:
descending on the "timestamp" string. -/
def tsDesc (a b : PickedBottle) : Bool :=
  decide (b.timestamp ≤ a.timestamp)

/-- `get_picked_bottles` (lines 142-146): sorted(bottles, key=timestamp,
reverse=True) over the user's list — a fresh list, self.data untouched;
the pair returns the result together with the (unchanged) state. -/
def get_picked_bottles (d : StorageData) (sender_id : String) :
    List PickedBottle × StorageData :=
  ((getUserList d sender_id).mergeSort tsDesc, d)

/-- Folding Python's max over the ids of a list from an explicit initial
value; `maxId (b :: bs)` is `foldMaxId b.id bs`. -/
def foldMaxId (init : Int) (l : List Bottle) : Int :=
  l.foldl (fun m x => max m x.id) init

/-!
### Comparison definitions and concrete fixtures
-/

/-- The id assignment as the claim words it (max-plus-one over the current
collection): 1 when both lists are empty, otherwise one plus the maximum
id occurring in the union of the active and picked lists. Stated for
comparison with `newId`, which embeds the source. -/
def claimedNewId (bs : Bottles) : Int :=
  if bs.active = [] ∧ bs.picked = [] then 1
  else 1 + maxId (bs.active ++ bs.picked)

/-- A store whose only bottle sits in picked and carries id -1. -/
def negIdStore : Bottles :=
  { active := [],
    picked := [{ id := -1, content := "c", images := [], sender := "s",
                 sender_id := "s1", timestamp := "t" }] }

/-- A one-active-one-picked store used to instantiate the lifecycle
theorems. -/
def wStore : Bottles :=
  { active := [{ id := 3, content := "hello", images := [], sender := "alice",
                 sender_id := "a1", timestamp := "2024-01-02 00:00:00" }],
    picked := [{ id := 1, content := "old", images := [], sender := "bob",
                 sender_id := "b1", timestamp := "2023-01-01 00:00:00" }] }

/-- The picked bottle of `wStore`. -/
def wPicked : Bottle :=
  { id := 1, content := "old", images := [], sender := "bob",
    sender_id := "b1", timestamp := "2023-01-01 00:00:00" }

/-- A 404 response to the first pick request. -/
def resp404 : HttpResp := { status := 404, retryAfter := none, bottle := ⟨[], ""⟩ }

/-- A 200 response to the reset request. -/
def resp200 : HttpResp := { status := 200, retryAfter := none, bottle := ⟨[], "b"⟩ }

/-- A 403 (blacklist) response to the retried pick request. -/
def resp403 : HttpResp := { status := 403, retryAfter := none, bottle := ⟨[], ""⟩ }

/-- A 500 response, a non-rate-limited failure. -/
def resp500 : HttpResp := { status := 500, retryAfter := none, bottle := ⟨[], ""⟩ }

/-- A storage state with two users used to instantiate the sorted-read
theorem. -/
def wStorage : StorageData :=
  { user_list :=
      [("u1", [{ bottle_id := 1, timestamp := "2024-05-01", payload := "x" },
               { bottle_id := 2, timestamp := "2024-06-01", payload := "y" }]),
       ("u2", [])] }

/-!
## Lemmas about the id maximum
-/

theorem foldMaxId_cons (i : Int) (b : Bottle) (l : List Bottle) :
    foldMaxId i (b :: l) = foldMaxId (max i b.id) l := rfl

theorem foldMaxId_max (a c : Int) (l : List Bottle) :
    foldMaxId (max a c) l = max a (foldMaxId c l) := by
  induction l generalizing c with
  | nil => rfl
  | cons b l ih => rw [foldMaxId_cons, foldMaxId_cons, max_assoc, ih]

theorem le_foldMaxId (i : Int) (l : List Bottle) : i ≤ foldMaxId i l := by
  have h := foldMaxId_max i i l
  rw [max_self] at h
  rw [h]
  exact le_max_left _ _

theorem mem_le_foldMaxId {b : Bottle} {l : List Bottle} (i : Int) (h : b ∈ l) :
    b.id ≤ foldMaxId i l := by
  induction l generalizing i with
  | nil => cases h
  | cons x l ih =>
      rcases List.mem_cons.mp h with h1 | h2
      · subst h1
        rw [foldMaxId_cons]
        exact le_trans (le_max_right i b.id) (le_foldMaxId _ _)
      · rw [foldMaxId_cons]
        exact ih _ h2

theorem maxId_eq_foldMaxId (b : Bottle) (l : List Bottle) :
    maxId (b :: l) = foldMaxId b.id l := rfl

theorem mem_le_maxId {b : Bottle} {l : List Bottle} (h : b ∈ l) :
    b.id ≤ maxId l := by
  cases l with
  | nil => cases h
  | cons x xs =>
      rcases List.mem_cons.mp h with h1 | h2
      · subst h1
        exact le_foldMaxId _ _
      · exact mem_le_foldMaxId _ h2

theorem foldMaxId_append (i : Int) (l1 l2 : List Bottle) :
    foldMaxId i (l1 ++ l2) = foldMaxId (foldMaxId i l1) l2 := by
  simp [foldMaxId, List.foldl_append]

theorem maxId_append {l1 l2 : List Bottle} (h1 : l1 ≠ []) (h2 : l2 ≠ []) :
    maxId (l1 ++ l2) = max (maxId l1) (maxId l2) := by
  cases l1 with
  | nil => cases h1 rfl
  | cons b bs =>
      cases l2 with
      | nil => cases h2 rfl
      | cons c cs =>
          calc maxId ((b :: bs) ++ c :: cs)
              = foldMaxId b.id (bs ++ c :: cs) := rfl
            _ = foldMaxId (foldMaxId b.id bs) (c :: cs) := foldMaxId_append _ _ _
            _ = foldMaxId (max (foldMaxId b.id bs) c.id) cs := rfl
            _ = max (foldMaxId b.id bs) (foldMaxId c.id cs) := foldMaxId_max _ _ _
            _ = max (maxId (b :: bs)) (maxId (c :: cs)) := rfl

/-- Every id already stored is strictly below the id the next throw will
assign, whatever the stored state. -/
theorem id_lt_newId {bs : Bottles} {b : Bottle}
    (h : b ∈ bs.active ++ bs.picked) : b.id < newId bs := by
  by_cases hA : bs.active = [] <;> by_cases hP : bs.picked = [] <;>
    rcases List.mem_append.mp h with hm | hm <;>
      first
        | (exfalso; rw [hA] at hm; cases hm)
        | (exfalso; rw [hP] at hm; cases hm)
        | (have h1 := mem_le_maxId hm
           simp only [newId, hA, hP, ne_eq, not_true_eq_false, not_false_iff,
             if_true, if_false, ite_true, ite_false]
           omega)

/-!
## C2 — identifier assignment
-/

/-- C2 counterexample: in the stored state negIdStore (active empty,
picked holding one bottle of id -1) an accepted throw assigns id 1, while
one plus the maximum id over the union of the two lists is 0, so the
claim's formula fails at this state. -/
theorem newId_claim_counterexample :
    (throw_bottle 500 1 negIdStore "hi" [] "a" "a1" "ts").added.map Bottle.id
        = some 1 ∧
    claimedNewId negIdStore = 0 ∧
    (throw_bottle 500 1 negIdStore "hi" [] "a" "a1" "ts").added.map Bottle.id
        ≠ some (claimedNewId negIdStore) := by decide

/-- C2 amended: an accepted throw assigns id newId; the assigned id is 1
when both lists are empty; it equals one plus the maximum id over the
union of the two lists whenever the active list is non-empty; when the
active list is empty and the picked list is not, it equals the maximum of
1 and one plus the picked maximum; in every case the new id is strictly
greater than every id already present in either list. -/
theorem newId_amended_spec :
    (∀ (mtl mi : Int) (bs : Bottles) (c : String) (imgs : List ImageData)
        (s sid ts : String),
        (check_content_limits mtl mi c imgs).1 = true →
        (throw_bottle mtl mi bs c imgs s sid ts).added.map Bottle.id
          = some (newId bs)) ∧
    (∀ bs : Bottles, bs.active = [] → bs.picked = [] → newId bs = 1) ∧
    (∀ bs : Bottles, bs.active ≠ [] →
        newId bs = 1 + maxId (bs.active ++ bs.picked)) ∧
    (∀ bs : Bottles, bs.active = [] → bs.picked ≠ [] →
        newId bs = max 1 (1 + maxId bs.picked)) ∧
    (∀ (bs : Bottles) (b : Bottle),
        b ∈ bs.active ++ bs.picked → b.id < newId bs) := by
  refine ⟨?_, ?_, ?_, ?_, fun bs b h => id_lt_newId h⟩
  · intro mtl mi bs c imgs s sid ts h
    simp [throw_bottle, h]
  · intro bs hA hP
    simp [newId, hA, hP]
  · intro bs hA
    by_cases hP : bs.picked = []
    · simp only [newId, hA, hP, ne_eq, not_true_eq_false, not_false_iff,
        if_true, if_false, ite_true, ite_false, List.append_nil]
      omega
    · simp only [newId, hA, hP, ne_eq, not_true_eq_false, not_false_iff,
        if_true, if_false, ite_true, ite_false]
      rw [maxId_append hA hP]
      omega
  · intro bs hA hP
    simp only [newId, hA, hP, ne_eq, not_true_eq_false, not_false_iff,
      if_true, if_false, ite_true, ite_false]
    omega

/-- Instantiation of newId_amended_spec at concrete stores. -/
theorem newId_amended_spec_witness :
    (throw_bottle 500 1 initialStore "hi" [] "a" "a1" "ts").added.map Bottle.id
        = some (newId initialStore) ∧
    newId initialStore = 1 ∧
    newId wStore = 1 + maxId (wStore.active ++ wStore.picked) ∧
    newId negIdStore = max 1 (1 + maxId negIdStore.picked) ∧
    wPicked.id < newId wStore :=
  ⟨newId_amended_spec.1 500 1 initialStore "hi" [] "a" "a1" "ts" (by decide),
   newId_amended_spec.2.1 initialStore rfl rfl,
   newId_amended_spec.2.2.1 wStore (by decide),
   newId_amended_spec.2.2.2.1 negIdStore rfl (by decide),
   newId_amended_spec.2.2.2.2 wStore wPicked (by decide)⟩

/-!
## C1 — one-way two-state lifecycle
-/

/-- C1: whenever the active list is non-empty, a pick run removes exactly
one bottle from the active list and appends the chosen bottle to the
picked list; and no command of the plugin moves a bottle out of the picked
list or from the picked list back into the active list. -/
theorem bottle_lifecycle_one_way :
    (∀ (bs : Bottles) (k : Nat) (hk : k < bs.active.length),
        (step bs (Op.pick k)).active.length + 1 = bs.active.length ∧
        (step bs (Op.pick k)).picked = bs.picked ++ [bs.active.get ⟨k, hk⟩]) ∧
    (∀ (bs : Bottles) (op : Op) (b : Bottle), b ∈ bs.picked →
        b ∈ (step bs op).picked ∧ (b ∈ (step bs op).active → b ∈ bs.active)) := by
  constructor
  · intro bs k hk
    have hmem : bs.active.get ⟨k, hk⟩ ∈ bs.active := List.get_mem bs.active k hk
    refine ⟨?_, ?_⟩
    · simp only [step, hk, dif_pos, pick_bottle]
      rw [List.length_erase_of_mem hmem]
      have hpos : 0 < bs.active.length := Nat.lt_of_le_of_lt (Nat.zero_le k) hk
      omega
    · simp only [step, hk, dif_pos, pick_bottle]
  · intro bs op b hb
    cases op with
    | throw mtl mi c imgs s sid ts =>
        by_cases hc : (check_content_limits mtl mi c imgs).1
        · refine ⟨by simpa [step, throw_bottle, hc] using hb, ?_⟩
          intro hbin
          simp only [step, throw_bottle, hc, if_true] at hbin
          rcases List.mem_append.mp hbin with h1 | h1
          · exact h1
          · exfalso
            have hlt : b.id < newId bs :=
              id_lt_newId (List.mem_append.mpr (Or.inr hb))
            have hbeq := List.mem_singleton.mp h1
            subst hbeq
            simp at hlt
        · exact ⟨by simpa [step, throw_bottle, hc] using hb,
            by simp [step, throw_bottle, hc]⟩
    | pick k =>
        by_cases hk : k < bs.active.length
        · simp only [step, hk, dif_pos, pick_bottle]
          exact ⟨List.mem_append_left _ hb, fun h => List.mem_of_mem_erase h⟩
        · simp only [step, hk, dif_neg, dite_false]
          exact ⟨hb, fun h => h⟩
    | viewPicked i => exact ⟨hb, fun h => h⟩
    | countBottles => exact ⟨hb, fun h => h⟩
    | listPicked => exact ⟨hb, fun h => h⟩

/-- Instantiation of bottle_lifecycle_one_way at the concrete store
wStore, picking index 0 and running the count command. -/
theorem bottle_lifecycle_one_way_witness :
    ((step wStore (Op.pick 0)).active.length + 1 = wStore.active.length ∧
      (step wStore (Op.pick 0)).picked
        = wStore.picked ++ [wStore.active.get ⟨0, by decide⟩]) ∧
    (wPicked ∈ (step wStore Op.countBottles).picked ∧
      (wPicked ∈ (step wStore Op.countBottles).active → wPicked ∈ wStore.active)) :=
  ⟨bottle_lifecycle_one_way.1 wStore 0 (by decide),
   bottle_lifecycle_one_way.2 wStore Op.countBottles wPicked (by decide)⟩

/-!
## C4 — bottle identity immutable
-/

/-- C4: the bottle a pick appends to the picked list is the very record
removed from the active list, field for field; and no command run changes
or drops an existing bottle record — every stored record is still stored,
unchanged, after the run. -/
theorem bottle_identity_immutable :
    (∀ (bs : Bottles) (k : Nat) (hk : k < bs.active.length),
        ((pick_bottle bs k hk).1).active
            = bs.active.erase (bs.active.get ⟨k, hk⟩) ∧
        ((pick_bottle bs k hk).1).picked
            = bs.picked ++ [(pick_bottle bs k hk).2] ∧
        ((pick_bottle bs k hk).2).id = (bs.active.get ⟨k, hk⟩).id ∧
        ((pick_bottle bs k hk).2).content = (bs.active.get ⟨k, hk⟩).content ∧
        ((pick_bottle bs k hk).2).images = (bs.active.get ⟨k, hk⟩).images ∧
        ((pick_bottle bs k hk).2).sender = (bs.active.get ⟨k, hk⟩).sender ∧
        ((pick_bottle bs k hk).2).sender_id = (bs.active.get ⟨k, hk⟩).sender_id ∧
        ((pick_bottle bs k hk).2).timestamp = (bs.active.get ⟨k, hk⟩).timestamp) ∧
    (∀ (bs : Bottles) (op : Op) (b : Bottle),
        b ∈ bs.active ++ bs.picked →
        b ∈ (step bs op).active ++ (step bs op).picked) := by
  constructor
  · intro bs k hk
    exact ⟨rfl, rfl, rfl, rfl, rfl, rfl, rfl, rfl⟩
  · intro bs op b hb
    cases op with
    | throw mtl mi c imgs s sid ts =>
        by_cases hc : (check_content_limits mtl mi c imgs).1
        · simp only [step, throw_bottle, hc, if_true]
          rcases List.mem_append.mp hb with h1 | h1
          · exact List.mem_append.mpr
              (Or.inl (List.mem_append_left _ h1))
          · exact List.mem_append.mpr (Or.inr h1)
        · simpa [step, throw_bottle, hc] using hb
    | pick k =>
        by_cases hk : k < bs.active.length
        · simp only [step, hk, dif_pos, pick_bottle]
          have hmem : bs.active.get ⟨k, hk⟩ ∈ bs.active := List.get_mem bs.active k hk
          rcases List.mem_append.mp hb with h1 | h1
          · have hsub := (List.perm_cons_erase hmem).subset h1
            rcases List.mem_cons.mp hsub with h2 | h2
            · exact List.mem_append.mpr (Or.inr
                (List.mem_append_right _ (List.mem_singleton.mpr h2)))
            · exact List.mem_append.mpr (Or.inl h2)
          · exact List.mem_append.mpr (Or.inr (List.mem_append_left _ h1))
        · simp only [step, hk, dif_neg, dite_false]
          exact hb
    | viewPicked i => exact hb
    | countBottles => exact hb
    | listPicked => exact hb

/-- Instantiation of bottle_identity_immutable at wStore, index 0. -/
theorem bottle_identity_immutable_witness :
    ((pick_bottle wStore 0 (by decide)).1).picked
        = wStore.picked ++ [(pick_bottle wStore 0 (by decide)).2] ∧
    wPicked ∈ (step wStore (Op.pick 0)).active ++ (step wStore (Op.pick 0)).picked :=
  ⟨(bottle_identity_immutable.1 wStore 0 (by decide)).2.1,
   bottle_identity_immutable.2 wStore (Op.pick 0) wPicked (by decide)⟩

/-!
## C8 — id uniqueness across reachable states
-/

/-- Appending a bottle whose id strictly dominates every stored id keeps
the stored ids pairwise distinct. -/
theorem nodup_append_new {A P : List Bottle} {nb : Bottle}
    (h : ((A ++ P).map Bottle.id).Nodup)
    (hnew : ∀ b ∈ A ++ P, b.id < nb.id) :
    (((A ++ [nb]) ++ P).map Bottle.id).Nodup := by
  have hperm : List.Perm (((A ++ [nb]) ++ P).map Bottle.id)
      (nb.id :: (A ++ P).map Bottle.id) := by
    rw [List.append_assoc]
    simp only [List.map_append, List.map_cons, List.singleton_append]
    exact List.perm_middle
  rw [hperm.nodup_iff]
  refine List.nodup_cons.mpr ⟨?_, h⟩
  intro hmem
  rcases List.mem_map.mp hmem with ⟨b, hbmem, hbid⟩
  exact absurd hbid (ne_of_lt (hnew b hbmem))

/-- Moving a member of the active list to the end of the picked list
permutes the stored records, so distinct ids stay distinct. -/
theorem nodup_pick {A P : List Bottle} {c : Bottle} (hc : c ∈ A)
    (h : ((A ++ P).map Bottle.id).Nodup) :
    ((A.erase c ++ (P ++ [c])).map Bottle.id).Nodup := by
  have hperm : List.Perm (A.erase c ++ (P ++ [c])) (A ++ P) := by
    have e1 : A.erase c ++ (P ++ [c]) = (A.erase c ++ P) ++ [c] := by
      rw [List.append_assoc]
    rw [e1]
    refine List.Perm.trans (List.perm_append_singleton _ _) ?_
    have e2 : c :: (A.erase c ++ P) = (c :: A.erase c) ++ P := rfl
    rw [e2]
    exact ((List.perm_cons_erase hc).symm).append_right P
  rw [(hperm.map Bottle.id).nodup_iff]
  exact h

/-- Every command run preserves distinctness of the stored ids. -/
theorem step_nodup {bs : Bottles} (op : Op) (h : (idsOf bs).Nodup) :
    (idsOf (step bs op)).Nodup := by
  cases op with
  | throw mtl mi c imgs s sid ts =>
      by_cases hc : (check_content_limits mtl mi c imgs).1
      · simp only [step, throw_bottle, hc, if_true, idsOf]
        exact nodup_append_new h (fun b hb => id_lt_newId hb)
      · simpa [step, throw_bottle, hc, idsOf] using h
  | pick k =>
      by_cases hk : k < bs.active.length
      · simp only [step, hk, dif_pos, pick_bottle, idsOf]
        exact nodup_pick (List.get_mem bs.active k hk) h
      · simpa [step, hk, idsOf] using h
  | viewPicked i => exact h
  | countBottles => exact h
  | listPicked => exact h

/-- C8: starting from the empty store, after any sequence of command runs
the ids stored across the active and picked lists are pairwise distinct. -/
theorem reachable_ids_distinct :
    ∀ ops : List Op, (idsOf (runOps initialStore ops)).Nodup := by
  have hgen : ∀ (ops : List Op) (bs : Bottles), (idsOf bs).Nodup →
      (idsOf (runOps bs ops)).Nodup := by
    intro ops
    induction ops with
    | nil => intro bs h; exact h
    | cons op ops ih =>
        intro bs h
        show (idsOf (List.foldl step (step bs op) ops)).Nodup
        exact ih (step bs op) (step_nodup op h)
  intro ops
  exact hgen ops initialStore (by simp [idsOf, initialStore])

/-!
## C3 and C5 — upload tracker
-/

/-- A recorded id survives any sequence of tracker operations. -/
theorem mem_runTracker {id : Int} :
    ∀ (ops : List TrackerOp) (d : TrackerData),
      id ∈ d.uploaded_ids → id ∈ (runTracker d ops).uploaded_ids := by
  intro ops
  induction ops with
  | nil => intro d h; exact h
  | cons op ops ih =>
      intro d h
      show id ∈ (List.foldl trackerStep (trackerStep d op) ops).uploaded_ids
      apply ih
      cases op with
      | mark id2 now =>
          simp only [trackerStep, mark_as_uploaded]
          by_cases hmem : id2 ∈ d.uploaded_ids
          · simpa [hmem] using h
          · simp only [hmem, if_false, ite_false]
            exact List.mem_append_left _ h
      | isUploaded i => exact h
      | lastUploadTime => exact h
      | uploadedCount => exact h

/-- C3: once is_uploaded holds for a bottle id, it still holds after every
later sequence of tracker operations — no operation removes an id from
the uploaded set. -/
theorem uploaded_flag_monotonic :
    ∀ (d : TrackerData) (bottle_id : Int),
      is_uploaded d bottle_id = true →
      ∀ ops : List TrackerOp,
        is_uploaded (runTracker d ops) bottle_id = true := by
  intro d id h ops
  simp only [is_uploaded, decide_eq_true_eq] at h ⊢
  exact mem_runTracker ops d h

/-- Instantiation of uploaded_flag_monotonic: id 5 stays uploaded across
a mark of another id and a count. -/
theorem uploaded_flag_monotonic_witness :
    is_uploaded (runTracker { uploaded_ids := [5], last_upload := none }
      [TrackerOp.mark 3 "t1", TrackerOp.uploadedCount]) 5 = true :=
  uploaded_flag_monotonic { uploaded_ids := [5], last_upload := none } 5
    (by decide) [TrackerOp.mark 3 "t1", TrackerOp.uploadedCount]

/-- Tracker runs started from any duplicate-free file keep uploaded_ids
duplicate-free. -/
theorem runTracker_nodup :
    ∀ (ops : List TrackerOp) (d : TrackerData), d.uploaded_ids.Nodup →
      (runTracker d ops).uploaded_ids.Nodup := by
  intro ops
  induction ops with
  | nil => intro d h; exact h
  | cons op ops ih =>
      intro d h
      show (List.foldl trackerStep (trackerStep d op) ops).uploaded_ids.Nodup
      apply ih
      cases op with
      | mark id2 now =>
          simp only [trackerStep, mark_as_uploaded]
          by_cases hmem : id2 ∈ d.uploaded_ids
          · simpa [hmem] using h
          · simp only [hmem, if_false, ite_false]
            exact ((List.perm_append_singleton _ _).nodup_iff).mpr
              (List.nodup_cons.mpr ⟨hmem, h⟩)
      | isUploaded i => exact h
      | lastUploadTime => exact h
      | uploadedCount => exact h

/-- C5: marking an already-uploaded id changes nothing (uploaded_ids and
last_upload both kept); get_uploaded_count is the length of uploaded_ids,
and from the initial file every uploaded id is counted exactly once; and
after mark_as_uploaded the id tests as uploaded. -/
theorem mark_as_uploaded_no_rerecord :
    (∀ (d : TrackerData) (id : Int) (now : String),
        is_uploaded d id = true → mark_as_uploaded d id now = d) ∧
    (∀ d : TrackerData, get_uploaded_count d = d.uploaded_ids.length) ∧
    (∀ (ops : List TrackerOp) (id : Int),
        is_uploaded (runTracker initialTracker ops) id = true →
        (runTracker initialTracker ops).uploaded_ids.count id = 1) ∧
    (∀ (d : TrackerData) (id : Int) (now : String),
        is_uploaded (mark_as_uploaded d id now) id = true) := by
  refine ⟨?_, fun d => rfl, ?_, ?_⟩
  · intro d id now h
    simp only [is_uploaded, decide_eq_true_eq] at h
    simp [mark_as_uploaded, h]
  · intro ops id h
    simp only [is_uploaded, decide_eq_true_eq] at h
    exact List.count_eq_one_of_mem
      (runTracker_nodup ops initialTracker List.nodup_nil) h
  · intro d id now
    simp only [is_uploaded, decide_eq_true_eq, mark_as_uploaded]
    by_cases hmem : id ∈ d.uploaded_ids
    · simp [hmem]
    · simp [hmem]

/-- Instantiation of mark_as_uploaded_no_rerecord at id 7. -/
theorem mark_as_uploaded_no_rerecord_witness :
    mark_as_uploaded { uploaded_ids := [7], last_upload := some "t0" } 7 "t1"
        = { uploaded_ids := [7], last_upload := some "t0" } ∧
    (runTracker initialTracker
        [TrackerOp.mark 7 "t0", TrackerOp.mark 7 "t1"]).uploaded_ids.count 7
      = 1 ∧
    is_uploaded (mark_as_uploaded initialTracker 7 "t0") 7 = true :=
  ⟨mark_as_uploaded_no_rerecord.1 { uploaded_ids := [7], last_upload := some "t0" }
      7 "t1" (by decide),
   mark_as_uploaded_no_rerecord.2.2.1
      [TrackerOp.mark 7 "t0", TrackerOp.mark 7 "t1"] 7 (by decide),
   mark_as_uploaded_no_rerecord.2.2.2 initialTracker 7 "t0"⟩

/-!
## C7 — validation precedes the store write
-/

/-- C7: when the text is over the configured maximum length or the images
exceed the configured maximum number, the throw run leaves the store
exactly as it was, adds no bottle (so no id is consumed), and its reply is
the non-empty error message of the limit check. -/
theorem throw_rejects_over_limits :
    ∀ (mtl mi : Int) (bs : Bottles) (content : String)
      (images : List ImageData) (s sid ts : String),
      ((content.length : Int) > mtl ∨ (images.length : Int) > mi) →
      (throw_bottle mtl mi bs content images s sid ts).state = bs ∧
      (throw_bottle mtl mi bs content images s sid ts).added = none ∧
      (check_content_limits mtl mi content images).1 = false ∧
      (throw_bottle mtl mi bs content images s sid ts).reply
        = (check_content_limits mtl mi content images).2 ∧
      (check_content_limits mtl mi content images).2 ≠ "" := by
  intro mtl mi bs content images s sid ts h
  have h0 : ("" : String).length = 0 := rfl
  have hfail : (check_content_limits mtl mi content images).1 = false ∧
      (check_content_limits mtl mi content images).2 ≠ "" := by
    by_cases h1 : (content.length : Int) > mtl
    · constructor
      · simp [check_content_limits, h1]
      · simp only [check_content_limits, h1, if_true, ite_true]
        intro heq
        have hlen := congrArg String.length heq
        simp only [String.length_append, h0] at hlen
        have hpos : 0 < ("漂流瓶内容超过长度限制（最大 " : String).length := by decide
        omega
    · have h2 : (images.length : Int) > mi := h.resolve_left h1
      constructor
      · simp [check_content_limits, h1, h2]
      · simp only [check_content_limits, h1, h2, if_true, if_false,
          ite_true, ite_false]
        intro heq
        have hlen := congrArg String.length heq
        simp only [String.length_append, h0] at hlen
        have hpos : 0 < ("图片数量超过限制（最大 " : String).length := by decide
        omega
  refine ⟨?_, ?_, hfail.1, ?_, hfail.2⟩ <;> simp [throw_bottle, hfail.1]

/-- Instantiation of throw_rejects_over_limits: max_text_length -1 rejects
the empty text and the store stays the initial one. -/
theorem throw_rejects_over_limits_witness :
    (throw_bottle (-1) 1 initialStore "" [] "a" "a1" "t").state = initialStore ∧
    (throw_bottle (-1) 1 initialStore "" [] "a" "a1" "t").added = none :=
  ⟨(throw_rejects_over_limits (-1) 1 initialStore "" [] "a" "a1" "t"
      (Or.inl (by decide))).1,
   (throw_rejects_over_limits (-1) 1 initialStore "" [] "a" "a1" "t"
      (Or.inl (by decide))).2.1⟩

/-!
## C9 — the loader is total and defaults
-/

/-- C9: the loader returns the default empty store on a missing or
unparsable file and on any parsed value that is not a dict holding both
the active and the picked key; and for every file state the returned
value is a dict holding both keys. -/
theorem load_bottles_total_default :
    load_bottles none = defaultStoreJson ∧
    (∀ j : Json,
        (∀ fields : List (String × Json), j = Json.obj fields →
            hasKey fields "active" = false ∨ hasKey fields "picked" = false) →
        load_bottles (some j) = defaultStoreJson) ∧
    (∀ file : Option Json, ∃ fields : List (String × Json),
        load_bottles file = Json.obj fields ∧
        hasKey fields "active" = true ∧ hasKey fields "picked" = true) := by
  refine ⟨rfl, ?_, ?_⟩
  · intro j hj
    cases j with
    | obj fields =>
        rcases hj fields rfl with h | h <;> simp [load_bottles, h]
    | arr e => rfl
    | str s => rfl
    | num n => rfl
    | boolean b => rfl
    | null => rfl
  · intro file
    have hdef : ∃ fields : List (String × Json),
        defaultStoreJson = Json.obj fields ∧
        hasKey fields "active" = true ∧ hasKey fields "picked" = true :=
      ⟨[("active", Json.arr []), ("picked", Json.arr [])], rfl, by decide, by decide⟩
    match file with
    | none => exact hdef
    | some (Json.obj fields) =>
        by_cases h1 : hasKey fields "active" = true
        · by_cases h2 : hasKey fields "picked" = true
          · exact ⟨fields, by simp [load_bottles, h1, h2], h1, h2⟩
          · have hd : load_bottles (some (Json.obj fields)) = defaultStoreJson := by
              simp [load_bottles, h2]
            rw [hd]; exact hdef
        · have hd : load_bottles (some (Json.obj fields)) = defaultStoreJson := by
            simp [load_bottles, h1]
          rw [hd]; exact hdef
    | some (Json.arr e) => exact hdef
    | some (Json.str s) => exact hdef
    | some (Json.num n) => exact hdef
    | some (Json.boolean b) => exact hdef
    | some Json.null => exact hdef

/-- Instantiation of load_bottles_total_default at the parsed value 3,
which is not a dict. -/
theorem load_bottles_total_default_witness :
    load_bottles (some (Json.num 3)) = defaultStoreJson :=
  load_bottles_total_default.2.1 (Json.num 3) (fun fields h => by simp at h)

/-!
## C10 — sorted read of the picked list
-/

/-- C10: get_picked_bottles returns a permutation of the stored per-user
list, sorted by timestamp newest first, leaves the stored data unchanged,
and returns the empty list for a sender absent from user_list. -/
theorem get_picked_bottles_sorted_read :
    ∀ (d : StorageData) (sid : String),
      List.Perm ((get_picked_bottles d sid).1) (getUserList d sid) ∧
      ((get_picked_bottles d sid).1).Pairwise
        (fun a b => b.timestamp ≤ a.timestamp) ∧
      (get_picked_bottles d sid).2 = d ∧
      (d.user_list.find? (fun p => p.1 = sid) = none →
        (get_picked_bottles d sid).1 = []) := by
  intro d sid
  have htrans : ∀ a b c : PickedBottle, tsDesc a b → tsDesc b c → tsDesc a c := by
    intro a b c h1 h2
    simp only [tsDesc, decide_eq_true_eq] at h1 h2 ⊢
    exact le_trans h2 h1
  have htotal : ∀ a b : PickedBottle, tsDesc a b || tsDesc b a := by
    intro a b
    simp only [tsDesc]
    rcases le_total a.timestamp b.timestamp with h | h <;> simp [h]
  refine ⟨List.mergeSort_perm _ _, ?_, rfl, ?_⟩
  · have hs := List.sorted_mergeSort htrans htotal (getUserList d sid)
    exact hs.imp (fun hab => by
      simpa only [tsDesc, decide_eq_true_eq] using hab)
  · intro h
    simp [get_picked_bottles, getUserList, h]

/-- Instantiation of get_picked_bottles_sorted_read at a sender with no
picked bottles. -/
theorem get_picked_bottles_sorted_read_witness :
    (get_picked_bottles wStorage "zz").1 = [] ∧
    (get_picked_bottles wStorage "zz").2 = wStorage :=
  ⟨(get_picked_bottles_sorted_read wStorage "zz").2.2.2 (by decide),
   (get_picked_bottles_sorted_read wStorage "zz").2.2.1⟩

/-!
## C6 — cloud pick with reset
-/

/-- C6 counterexample: first pick 404, reset 200, retried pick 403 — a
non-rate-limited failing status — yet the function returns the blacklist
error dict, not None as the claim states. -/
theorem pick_random_bottle_retry403_counterexample :
    resp404.status = 404 ∧ resp200.status = 200 ∧ resp403.status = 403 ∧
    resp403.status ≠ 200 ∧ resp403.status ≠ 429 ∧
    pick_random_bottle resp404 resp200 resp403
        = PickOutcome.errorMsg blacklistMsg ∧
    pick_random_bottle resp404 resp200 resp403 ≠ PickOutcome.nothing := by
  decide

/-- C6 amended: a first pick answered 200 returns the bottle with is_reset
false; on 404 the code resets once and retries once, returning the bottle
with is_reset true when the retry is 200; it returns None when the reset
fails with a non-rate-limited status, or when the retried pick fails with
a non-rate-limited status other than 403; a 403 on the retried pick
returns the blacklist error dict. -/
theorem pick_random_bottle_reset_flow :
    (∀ first resetR retry : HttpResp, first.status = 200 →
        pick_random_bottle first resetR retry
          = PickOutcome.picked (transformImages first.bottle) false) ∧
    (∀ first resetR retry : HttpResp, first.status = 404 →
        resetR.status = 200 → retry.status = 200 →
        pick_random_bottle first resetR retry
          = PickOutcome.picked (transformImages retry.bottle) true) ∧
    (∀ first resetR retry : HttpResp, first.status = 404 →
        resetR.status ≠ 200 → resetR.status ≠ 429 →
        pick_random_bottle first resetR retry = PickOutcome.nothing) ∧
    (∀ first resetR retry : HttpResp, first.status = 404 →
        resetR.status = 200 → retry.status ≠ 200 → retry.status ≠ 429 →
        retry.status ≠ 403 →
        pick_random_bottle first resetR retry = PickOutcome.nothing) ∧
    (∀ first resetR retry : HttpResp, first.status = 404 →
        resetR.status = 200 → retry.status = 403 →
        pick_random_bottle first resetR retry
          = PickOutcome.errorMsg blacklistMsg) := by
  refine ⟨?_, ?_, ?_, ?_, ?_⟩
  · intro f r rt h
    simp [pick_random_bottle, handleRateLimit, h]
  · intro f r rt h1 h2 h3
    simp [pick_random_bottle, handleRateLimit, h1, h2, h3]
  · intro f r rt h1 h2 h3
    simp [pick_random_bottle, handleRateLimit, h1, h2, h3]
  · intro f r rt h1 h2 h3 h4 h5
    simp [pick_random_bottle, handleRateLimit, h1, h2, h3, h4, h5]
  · intro f r rt h1 h2 h3
    simp [pick_random_bottle, handleRateLimit, h1, h2, h3]

/-- Instantiation of pick_random_bottle_reset_flow at concrete responses
for the 200, the 404-reset-200, the reset-failure, the retry-500 and the
retry-403 paths. -/
theorem pick_random_bottle_reset_flow_witness :
    pick_random_bottle resp200 resp404 resp403
        = PickOutcome.picked (transformImages resp200.bottle) false ∧
    pick_random_bottle resp404 resp200 resp200
        = PickOutcome.picked (transformImages resp200.bottle) true ∧
    pick_random_bottle resp404 resp403 resp200 = PickOutcome.nothing ∧
    pick_random_bottle resp404 resp200 resp500 = PickOutcome.nothing ∧
    pick_random_bottle resp404 resp200 resp403
        = PickOutcome.errorMsg blacklistMsg :=
  ⟨pick_random_bottle_reset_flow.1 resp200 resp404 resp403 rfl,
   pick_random_bottle_reset_flow.2.1 resp404 resp200 resp200 rfl rfl rfl,
   pick_random_bottle_reset_flow.2.2.1 resp404 resp403 resp200 rfl
      (by decide) (by decide),
   pick_random_bottle_reset_flow.2.2.2.1 resp404 resp200 resp500 rfl rfl
      (by decide) (by decide) (by decide),
   pick_random_bottle_reset_flow.2.2.2.2 resp404 resp200 resp403 rfl rfl rfl⟩

end DriftBottle
